import Mathlib

/-!
Shallow embedding of the trainer calendar data pipeline of
`projectTrainer-production` (documented, with inline code, in
`MY_CALENDAR_README.md`): date normalization, the booking date-range
filter, the event-to-booking adapter, deduplication of confirmed
bookings against events, blocked-weekday expansion, the per-date
booking matcher, and the day status resolver.

JavaScript strings are modelled as `List Char` (`JStr`), with the
lexicographic comparison, `split('T')[0]`, and `toLowerCase` given as
structural Lean functions so that every definition evaluates in the
kernel.  A JavaScript expression that can throw a `TypeError`
(a member access on `null`) is modelled in the `Except Unit` monad.
-/

/-- JavaScript string values, modelled as their character lists. -/
abbrev JStr := List Char

/-- Lexicographic string comparison `a <= b`, as JavaScript compares
strings with `<=` / `>=` (code-unit order; identical to code-point
order on the ASCII date strings involved here). -/
def strLeB : JStr → JStr → Bool
  | [], _ => true
  | _ :: _, [] => false
  | a :: as, b :: bs => if a < b then true else if b < a then false else strLeB as bs

/-- JavaScript `s.split('T')[0]`: the prefix of `s` before the first
`'T'` (the whole string when no `'T'` occurs). -/
def splitT (s : JStr) : JStr := s.takeWhile (fun c => c ≠ 'T')

/-- JavaScript `s.toLowerCase()` (character-wise lowering suffices for
the ASCII status and date strings used by the calendar). -/
def toLowerStr (s : JStr) : JStr := s.map Char.toLower

/-- ASCII digit test used by the date-shape validation. -/
def isAsciiDigit (c : Char) : Bool := '0' ≤ c && c ≤ '9'

/-- Shape test for a canonical `YYYY-MM-DD` date string. -/
def isDatePart : JStr → Bool
  | [y1, y2, y3, y4, s1, m1, m2, s2, d1, d2] =>
    isAsciiDigit y1 && isAsciiDigit y2 && isAsciiDigit y3 && isAsciiDigit y4 &&
    s1 == '-' && isAsciiDigit m1 && isAsciiDigit m2 &&
    s2 == '-' && isAsciiDigit d1 && isAsciiDigit d2
  | _ => false

/-- Modelled from the spec: the body of `normalizeDate`
(`src/lib/calendarUtils.ts` is not part of the repository snapshot;
only its callers in `MY_CALENDAR_README.md` are).  Per spec §4.1 it
takes a raw date value (ISO datetime string, date-only string, or a
missing value; a native `Date` is outside the string model), truncates
a trailing time-of-day component at the `'T'` boundary, returns the
canonical `YYYY-MM-DD` string, and signals an unparseable or missing
input by returning `null` (`none`) instead of throwing. -/
def normalizeDate : Option JStr → Option JStr
  | none => none
  | some s =>
    let datePart := splitT s
    if isDatePart datePart then some datePart else none

/-- Booking records as they flow through the calendar pipeline
(`booking_requests` rows, normalized bookings, and event-derived
bookings all share this shape).  `requested_date` is an `Option`
because `normalizeDate` can yield `null`, and `end_date` because the
column is nullable. -/
structure Booking where
  id : Nat
  course_id : JStr
  trainer_id : JStr
  requested_date : Option JStr
  end_date : Option JStr
  status : JStr
  request_type : JStr
  title : Option JStr
deriving DecidableEq

/-- Event records as fetched from `/api/events` (pre-filtered to
ACTIVE by the caller).  `courseTitle` stands for `event.course?.title`. -/
structure Event where
  id : Nat
  courseId : JStr
  trainerId : JStr
  eventDate : Option JStr
  endDate : Option JStr
  title : Option JStr
  courseType : JStr
  courseTitle : Option JStr
deriving DecidableEq

/-- Raw trainer availability rows from `/api/availability`. -/
structure AvailabilityRecord where
  id : Nat
  trainerId : JStr
  date : JStr
  status : JStr
  startTime : Option JStr
  endTime : Option JStr
deriving DecidableEq

/-- Availability rows after Step 5 of the pipeline (snake-cased,
date truncated, status lower-cased). -/
structure NormalizedAvailability where
  id : Nat
  trainer_id : JStr
  date : JStr
  status : JStr
  start_time : Option JStr
  end_time : Option JStr
deriving DecidableEq

/-- Step 5 of the pipeline (`normalizedAvailability` in the README):
`date: item.date.split('T')[0]`, `status: item.status.toLowerCase()`,
other fields renamed across. -/
def normalizeAvailability (a : AvailabilityRecord) : NormalizedAvailability :=
  { id := a.id
    trainer_id := a.trainerId
    date := splitT a.date
    status := toLowerStr a.status
    start_time := a.startTime
    end_time := a.endTime }

/-- JavaScript `a || b` on possibly-absent strings (the empty string is
falsy), as in `event.title || event.course?.title`. -/
def jsOrElse (a b : Option JStr) : Option JStr :=
  match a with
  | some s => if s.isEmpty then b else some s
  | none => b

/-- Step 2 of the pipeline: the event-to-booking adapter.  Per the
README, `status` is the literal `'booked'`, the dates go through
`normalizeDate`, `request_type` is derived from `courseType`, and the
course/trainer/title fields are copied through. -/
def eventToBooking (e : Event) : Booking :=
  { id := e.id
    course_id := e.courseId
    trainer_id := e.trainerId
    requested_date := normalizeDate e.eventDate
    end_date := normalizeDate e.endDate
    status := "booked".data
    request_type := if e.courseType == "PUBLIC".data then "public".data else "inhouse".data
    title := jsOrElse e.title e.courseTitle }

/-- The `eventBookings` array: every fetched event, adapted. -/
def eventBookings (allEvents : List Event) : List Booking :=
  allEvents.map eventToBooking

/-- The `.map` half of Step 1: spread the booking, normalize its
`requested_date`, lower-case its `status`. -/
def normalizeBookingRecord (b : Booking) : Booking :=
  { b with
    requested_date := normalizeDate b.requested_date
    status := toLowerStr b.status }

/-- Effectful list filter: the predicate may throw (JavaScript
`Array.prototype.filter` with a throwing callback aborts at the first
throwing element). -/
def filterME {α : Type} (p : α → Except Unit Bool) : List α → Except Unit (List α)
  | [] => Except.ok []
  | x :: xs =>
    match p x with
    | Except.error e => Except.error e
    | Except.ok b =>
      match filterME p xs with
      | Except.error e => Except.error e
      | Except.ok l => Except.ok (if b then x :: l else l)

/-- The `.filter` half of Step 1: `const dateStr =
booking.requested_date.split('T')[0]; return dateStr >= startStr &&
dateStr <= endStr`.  When `normalizeDate` returned `null`, the member
access `.split` throws a `TypeError`, modelled as `Except.error`. -/
def inDisplayedRange (startStr endStr : JStr) (b : Booking) : Except Unit Bool :=
  match b.requested_date with
  | none => Except.error ()
  | some rd =>
    let dateStr := splitT rd
    Except.ok (strLeB startStr dateStr && strLeB dateStr endStr)

/-- Total variant of the Step 1 range test, defined on bookings whose
`requested_date` is present (it answers `false` on an absent date). -/
def inDisplayedRangeB (startStr endStr : JStr) (b : Booking) : Bool :=
  match b.requested_date with
  | none => false
  | some rd =>
    let dateStr := splitT rd
    strLeB startStr dateStr && strLeB dateStr endStr

/-- Step 1 of the pipeline (`filteredBookings` in the README):
normalize every fetched booking, then keep those whose normalized
start date lies in the displayed range `[startStr, endStr]`. -/
def filteredBookings (allBookings : List Booking) (startStr endStr : JStr) :
    Except Unit (List Booking) :=
  filterME (inDisplayedRange startStr endStr) (allBookings.map normalizeBookingRecord)

/-- How the template literal renders a possibly-`null` date into the
dedup identifier (`null` prints as the four letters `null`). -/
def renderDate : Option JStr → JStr
  | some d => d
  | none => "null".data

/-- The dedup identifier `` `${courseId}:${date}` ``. -/
def identOf (course_id : JStr) (rd : Option JStr) : JStr :=
  course_id ++ ':' :: renderDate rd

/-- Step 3a of the pipeline: the set of `{courseId}:{date}`
identifiers built from the event-derived bookings (a `Set<string>`,
modelled as the list of its insertions; only membership is consulted). -/
def eventIdentifiers (evBookings : List Booking) : List JStr :=
  evBookings.map (fun e => identOf e.course_id e.requested_date)

/-- The keep/discard decision of Step 3b, exactly as the README filter
callback: non-`confirmed` statuses are kept; a `confirmed` booking is
discarded exactly when its own identifier is among the event
identifiers. -/
def keepBooking (evIds : List JStr) (b : Booking) : Bool :=
  if toLowerStr b.status ≠ "confirmed".data then true
  else if evIds.contains (identOf b.course_id b.requested_date) then false
  else true

/-- Step 3b of the pipeline (`deduplicatedBookings` in the README). -/
def deduplicatedBookings (filtered evBookings : List Booking) : List Booking :=
  filtered.filter (keepBooking (eventIdentifiers evBookings))

/-- Step 4 of the pipeline: `[...deduplicatedBookings, ...eventBookings]`. -/
def allCalendarBookings (filtered evBookings : List Booking) : List Booking :=
  deduplicatedBookings filtered evBookings ++ evBookings

/-- Day numbers since 1970-01-01 stand in for JavaScript `Date` values
(the loop in Step 6 advances a `Date` by one civil day per
iteration).  `civilFromDays` converts a day number back to a
`(year, month, day)` triple, by the standard civil-from-days
computation. -/
def civilFromDays (z : Nat) : Nat × Nat × Nat :=
  let zz := z + 719468
  let era := zz / 146097
  let doe := zz % 146097
  let yoe := (doe - doe / 1460 + doe / 36524 - doe / 146096) / 365
  let y := yoe + era * 400
  let doy := doe - (365 * yoe + yoe / 4 - yoe / 100)
  let mp := (5 * doy + 2) / 153
  let d := doy - (153 * mp + 2) / 5 + 1
  let m := if mp < 10 then mp + 3 else mp - 9
  (if m ≤ 2 then y + 1 else y, m, d)

/-- Day number since 1970-01-01 of a civil `(year, month, day)` date. -/
def daysFromCivil (y m d : Nat) : Nat :=
  let yy := if m ≤ 2 then y - 1 else y
  let era := yy / 400
  let yoe := yy % 400
  let doy := (153 * (if 2 < m then m - 3 else m + 9) + 2) / 5 + d - 1
  let doe := yoe * 365 + yoe / 4 - yoe / 100 + doy
  era * 146097 + doe - 719468

/-- JavaScript `Date.prototype.getDay()`: 0 = Sunday .. 6 = Saturday
(day number 0, 1970-01-01, was a Thursday). -/
def dayOfWeek (z : Nat) : Nat := (z + 4) % 7

/-- The ASCII digit character of `n < 10`. -/
def natDigitChar (n : Nat) : Char := Char.ofNat (48 + n)

/-- Two-digit zero-padded rendering (months and days). -/
def pad2 (n : Nat) : JStr := [natDigitChar (n / 10 % 10), natDigitChar (n % 10)]

/-- Four-digit zero-padded rendering (years). -/
def pad4 (n : Nat) : JStr :=
  [natDigitChar (n / 1000 % 10), natDigitChar (n / 100 % 10),
   natDigitChar (n / 10 % 10), natDigitChar (n % 10)]

/-- The `formatDate` helper: canonical `YYYY-MM-DD` rendering of the
date a day number denotes. -/
def formatDate (z : Nat) : JStr :=
  let c := civilFromDays z
  pad4 c.1 ++ '-' :: pad2 c.2.1 ++ '-' :: pad2 c.2.2

/-- The body of the Step 6 `while (current <= endDate)` loop, with the
loop's trip count as structural fuel so that it evaluates in the
kernel. -/
def expandLoop (blockedWeekdays : List Nat) : Nat → Nat → Nat → List JStr
  | 0, _, _ => []
  | fuel + 1, current, endZ =>
    if current ≤ endZ then
      (if blockedWeekdays.contains (dayOfWeek current) then [formatDate current] else [])
        ++ expandLoop blockedWeekdays fuel (current + 1) endZ
    else []

/-- Step 6 of the pipeline (`expandedBlockedDates` in the README):
walk day by day from `startZ` to `endZ` inclusive, collecting the
formatted dates whose weekday the trainer has blocked. -/
def expandedBlockedDates (startZ endZ : Nat) (blockedWeekdays : List Nat) : List JStr :=
  expandLoop blockedWeekdays (endZ + 1 - startZ) startZ endZ

/-- The per-date matcher callback of `getBookingsForDate`: multi-day
bookings match every date of `[start, end]` (string comparison on
truncated dates); bookings without an end date (or whose truncated end
date is the empty string, which is falsy) match exactly their start
date.  A `null` `requested_date` makes `.split` throw. -/
def bookingMatchesDate (dateString : JStr) (b : Booking) : Except Unit Bool :=
  match b.requested_date with
  | none => Except.error ()
  | some rd =>
    let bookingStart := splitT rd
    match b.end_date with
    | some ed =>
      let bookingEnd := splitT ed
      if bookingEnd.isEmpty then Except.ok (bookingStart == dateString)
      else Except.ok (strLeB bookingStart dateString && strLeB dateString bookingEnd)
    | none => Except.ok (bookingStart == dateString)

/-- Total variant of the matcher callback (`false` on an absent
`requested_date`). -/
def bookingMatchesDateB (dateString : JStr) (b : Booking) : Bool :=
  match b.requested_date with
  | none => false
  | some rd =>
    let bookingStart := splitT rd
    match b.end_date with
    | some ed =>
      let bookingEnd := splitT ed
      if bookingEnd.isEmpty then bookingStart == dateString
      else strLeB bookingStart dateString && strLeB dateString bookingEnd
    | none => bookingStart == dateString

/-- The `getBookingsForDate` helper of the README. -/
def getBookingsForDate (bookings : List Booking) (dateString : JStr) :
    Except Unit (List Booking) :=
  filterME (bookingMatchesDate dateString) bookings

/-- The five mutually exclusive display statuses of a calendar day. -/
inductive DayStatus where
  | blocked
  | booked
  | tentative
  | available
  | not_available
deriving DecidableEq

/-- Bool test for a booking counting toward the `booked` tier. -/
def isBookedStatus (b : Booking) : Bool :=
  b.status == "booked".data || b.status == "confirmed".data

/-- Bool test for a booking counting toward the `tentative` tier. -/
def isTentativeStatus (b : Booking) : Bool :=
  b.status == "approved".data || b.status == "tentative".data

/-- Modelled from the spec: the body of `resolveDayStatus`
(`src/lib/calendarUtils.ts` is not part of the repository snapshot;
the README documents only its priority table).  Per spec §4.6 and the
README's Status Resolution Priority: blocked first; else `booked` when
some overlapping booking is `booked`/`confirmed`; else `tentative`
when some is `approved`/`tentative`; else the availability record
decides (`available` exactly when a record exists with status
`available`; `not_available` otherwise, including when no record
exists).  Booking and availability statuses reach this function
already lower-cased by Steps 1 and 5. -/
def resolveDayStatus (isBlocked : Bool) (dayBookings : List Booking)
    (availability : Option NormalizedAvailability) : DayStatus :=
  if isBlocked then DayStatus.blocked
  else if dayBookings.any isBookedStatus then DayStatus.booked
  else if dayBookings.any isTentativeStatus then DayStatus.tentative
  else
    match availability with
    | some a => if a.status == "available".data then DayStatus.available else DayStatus.not_available
    | none => DayStatus.not_available

/-! Concrete records used by the witnesses and concrete conjuncts. -/

/-- A single-day booking with status `booked`. -/
def bkBooked : Booking :=
  ⟨1, "c1".data, "t1".data, some "2024-01-10".data, none, "booked".data, "inhouse".data, none⟩

/-- A single-day booking with status `approved`. -/
def bkApproved : Booking :=
  ⟨2, "c1".data, "t1".data, some "2024-01-10".data, none, "approved".data, "inhouse".data, none⟩

/-- The multi-day booking of the spec example: start 2024-01-10, end
2024-01-12. -/
def bkMultiDay : Booking :=
  ⟨3, "c1".data, "t1".data, some "2024-01-10".data, some "2024-01-12".data, "approved".data,
   "inhouse".data, none⟩

/-- A normalized `confirmed` booking for course `c9` on 2024-03-05. -/
def bkConfirmed : Booking :=
  ⟨4, "c9".data, "t1".data, some "2024-03-05".data, none, "confirmed".data, "inhouse".data, none⟩

/-- A raw `CONFIRMED` multi-day booking that starts before the
displayed March range but ends inside it. -/
def bkEarlyStart : Booking :=
  ⟨5, "c2".data, "t1".data, some "2024-02-28".data, some "2024-03-05".data, "CONFIRMED".data,
   "inhouse".data, none⟩

/-- A raw booking whose `requested_date` does not parse as a date. -/
def bkBadDate : Booking :=
  ⟨6, "c3".data, "t1".data, some "not-a-date".data, none, "pending".data, "inhouse".data, none⟩

/-- A sample ACTIVE event for course `c9` on 2024-03-05. -/
def evSample : Event :=
  ⟨10, "c9".data, "t1".data, some "2024-03-05".data, some "2024-03-06".data,
   some "Course 9".data, "PUBLIC".data, none⟩

/-- A raw availability record whose status is mixed-case `AVAILABLE`. -/
def avMixedCase : AvailabilityRecord :=
  ⟨20, "t1".data, "2024-01-10T00:00:00.000Z".data, "AVAILABLE".data, none, none⟩

/-! Helper lemmas about the embedded pipeline. -/

/-- When the callback throws on no element of the list, the effectful
filter agrees with the pure filter through the callback's value. -/
theorem filterME_ok {α : Type} (p : α → Except Unit Bool) (q : α → Bool) (l : List α)
    (h : ∀ x ∈ l, p x = Except.ok (q x)) : filterME p l = Except.ok (l.filter q) := by
  induction l with
  | nil => rfl
  | cons x xs ih =>
    have hx := h x (List.mem_cons_self x xs)
    have ht := ih (fun y hy => h y (List.mem_cons_of_mem x hy))
    simp only [filterME, hx, ht, List.filter_cons]

/-- The Step 3 filter callback discards a booking exactly when its
(double-lower-cased) status is `confirmed` and its identifier occurs
among the event identifiers. -/
theorem keepBooking_eq_false_iff (evIds : List JStr) (b : Booking) :
    keepBooking evIds b = false ↔
      toLowerStr b.status = "confirmed".data
        ∧ identOf b.course_id b.requested_date ∈ evIds := by
  unfold keepBooking
  by_cases h1 : toLowerStr b.status = "confirmed".data
  · by_cases h2 : identOf b.course_id b.requested_date ∈ evIds
    · simp [h1, h2]
    · simp [h1, h2]
  · simp [h1]

/-- Claim C2: in the deduplicator's output, a raw booking whose status
is `confirmed` and whose `{courseId}:{date}` identifier occurs among
the event-derived identifiers is discarded (multiplicity 0); every
other raw booking keeps exactly its input multiplicity; the kept raw
bookings preserve their relative input order (sublist), and the
combined output is the kept raw bookings followed by all
event-derived bookings. -/
theorem deduplicatedBookings_spec (filtered evB : List Booking) (b : Booking) :
    allCalendarBookings filtered evB = deduplicatedBookings filtered evB ++ evB
    ∧ (deduplicatedBookings filtered evB).Sublist filtered
    ∧ List.count b (deduplicatedBookings filtered evB) =
        (if toLowerStr b.status = "confirmed".data
            ∧ identOf b.course_id b.requested_date ∈ eventIdentifiers evB
         then 0 else List.count b filtered) := by
  refine ⟨rfl, List.filter_sublist filtered, ?_⟩
  by_cases hc : toLowerStr b.status = "confirmed".data
      ∧ identOf b.course_id b.requested_date ∈ eventIdentifiers evB
  · rw [if_pos hc]
    have hk : keepBooking (eventIdentifiers evB) b = false :=
      (keepBooking_eq_false_iff _ _).mpr hc
    refine List.count_eq_zero.mpr (fun hmem => ?_)
    have hkept := (List.mem_filter.mp hmem).2
    rw [hk] at hkept
    exact Bool.false_ne_true hkept
  · rw [if_neg hc]
    have hk : keepBooking (eventIdentifiers evB) b = true := by
      cases hkb : keepBooking (eventIdentifiers evB) b
      · exact absurd ((keepBooking_eq_false_iff _ _).mp hkb) hc
      · rfl
    exact List.count_filter hk

/-- Claim C7: the deduplicator is deterministic in its two inputs, and
re-filtering its own output with the same event list changes nothing
(the underlying keep predicate is a pure membership test). -/
theorem deduplicatedBookings_pure_idempotent (f e f2 e2 : List Booking)
    (hf : f = f2) (he : e = e2) :
    deduplicatedBookings f e = deduplicatedBookings f2 e2
    ∧ deduplicatedBookings (deduplicatedBookings f e) e = deduplicatedBookings f e := by
  subst hf
  subst he
  refine ⟨rfl, ?_⟩
  simp [deduplicatedBookings, List.filter_filter, Bool.and_self]

/-- Witness for claim C7 at a concrete confirmed booking and a
concrete event list. -/
theorem deduplicatedBookings_pure_idempotent_witness :
    deduplicatedBookings [bkConfirmed] [eventToBooking evSample]
        = deduplicatedBookings [bkConfirmed] [eventToBooking evSample]
    ∧ deduplicatedBookings
          (deduplicatedBookings [bkConfirmed] [eventToBooking evSample])
          [eventToBooking evSample]
        = deduplicatedBookings [bkConfirmed] [eventToBooking evSample] :=
  deduplicatedBookings_pure_idempotent [bkConfirmed] [eventToBooking evSample]
    [bkConfirmed] [eventToBooking evSample] rfl rfl

/-- Claim C8: the event-to-booking adapter maps every event to a
booking-shaped value whose `status` is the literal `booked`, whose
dates are the normalized event dates, and whose id, course, trainer
and title fields are copied through (`title` via the JavaScript
`event.title || event.course?.title` fallback). -/
theorem eventToBooking_spec (evs : List Event) (e : Event) :
    eventBookings evs = evs.map eventToBooking
    ∧ (eventToBooking e).status = "booked".data
    ∧ (eventToBooking e).end_date = normalizeDate e.endDate
    ∧ (eventToBooking e).course_id = e.courseId
    ∧ (eventToBooking e).trainer_id = e.trainerId
    ∧ (eventToBooking e).requested_date = normalizeDate e.eventDate
    ∧ (eventToBooking e).title = jsOrElse e.title e.courseTitle
    ∧ (eventToBooking e).id = e.id :=
  ⟨rfl, rfl, rfl, rfl, rfl, rfl, rfl, rfl⟩

/-- Claim C6: `normalizeDate` truncates a trailing time component,
maps a missing or unparseable input to `null` without throwing — but
the range-filter caller in the README performs no `null` check: a
booking whose raw date does not parse makes the Step 1 filter throw a
`TypeError` (modelled as `Except.error`), it is not dropped. -/
theorem normalizeDate_null_not_checked :
    normalizeDate (some "2024-01-10T09:30:00.000Z".data) = some "2024-01-10".data
    ∧ normalizeDate none = none
    ∧ normalizeDate (some "not-a-date".data) = none
    ∧ filteredBookings [bkBadDate] "2024-01-01".data "2024-01-31".data = Except.error () :=
  ⟨by decide, rfl, by decide, rfl⟩

/-- Claim C1: for every input, the resolver yields exactly one of the
five statuses, characterized by the strict descending precedence
blocked > booked > tentative > available > not_available; in
particular a blocked day with a `booked` booking resolves to
`blocked`, and a day with one `booked` and one `approved` booking
resolves to `booked`. -/
theorem resolveDayStatus_total_precedence (bl : Bool) (bs : List Booking)
    (av : Option NormalizedAvailability) :
    (resolveDayStatus bl bs av = DayStatus.blocked ↔ bl = true)
    ∧ (resolveDayStatus bl bs av = DayStatus.booked ↔
        bl = false ∧ ∃ b ∈ bs, b.status = "booked".data ∨ b.status = "confirmed".data)
    ∧ (resolveDayStatus bl bs av = DayStatus.tentative ↔
        bl = false ∧ ¬(∃ b ∈ bs, b.status = "booked".data ∨ b.status = "confirmed".data)
          ∧ ∃ b ∈ bs, b.status = "approved".data ∨ b.status = "tentative".data)
    ∧ (resolveDayStatus bl bs av = DayStatus.available ↔
        bl = false ∧ ¬(∃ b ∈ bs, b.status = "booked".data ∨ b.status = "confirmed".data)
          ∧ ¬(∃ b ∈ bs, b.status = "approved".data ∨ b.status = "tentative".data)
          ∧ ∃ a, av = some a ∧ a.status = "available".data)
    ∧ (resolveDayStatus bl bs av = DayStatus.not_available ↔
        bl = false ∧ ¬(∃ b ∈ bs, b.status = "booked".data ∨ b.status = "confirmed".data)
          ∧ ¬(∃ b ∈ bs, b.status = "approved".data ∨ b.status = "tentative".data)
          ∧ ∀ a, av = some a → ¬ a.status = "available".data)
    ∧ resolveDayStatus true [bkBooked] none = DayStatus.blocked
    ∧ resolveDayStatus false [bkBooked, bkApproved] none = DayStatus.booked := by
  refine ⟨?_, ?_, ?_, ?_, ?_, by decide, by decide⟩ <;>
  · unfold resolveDayStatus
    cases bl <;> cases h1 : bs.any isBookedStatus <;> cases h2 : bs.any isTentativeStatus <;>
      rcases av with _ | a <;>
      simp_all [List.any_eq_true, List.any_eq_false, isBookedStatus, isTentativeStatus] <;>
      by_cases ha : a.status = "available".data <;> simp_all

/-- Claim C5: on a day that is not blocked and whose bookings are all
outside the booked/tentative tiers, the resolver answers `available`
exactly when an availability record exists whose status lower-cases to
`available` (so mixed-case `AVAILABLE` qualifies after Step 5
normalization), and `not_available` in every other case, including the
absence of a record. -/
theorem resolveDayStatus_availability_spec (bs : List Booking) (rawAv : Option AvailabilityRecord)
    (h : ∀ b ∈ bs, b.status ≠ "booked".data ∧ b.status ≠ "confirmed".data
          ∧ b.status ≠ "approved".data ∧ b.status ≠ "tentative".data) :
    (resolveDayStatus false bs (rawAv.map normalizeAvailability) = DayStatus.available ↔
      ∃ a, rawAv = some a ∧ toLowerStr a.status = "available".data)
    ∧ (resolveDayStatus false bs (rawAv.map normalizeAvailability) = DayStatus.not_available ↔
      ∀ a, rawAv = some a → ¬ toLowerStr a.status = "available".data) := by
  have h1 : bs.any isBookedStatus = false :=
    List.any_eq_false.mpr (fun b hb => by simp [isBookedStatus, (h b hb).1, (h b hb).2.1])
  have h2 : bs.any isTentativeStatus = false :=
    List.any_eq_false.mpr (fun b hb => by simp [isTentativeStatus, (h b hb).2.2.1, (h b hb).2.2.2])
  unfold resolveDayStatus
  rcases rawAv with _ | a
  · simp [h1, h2]
  · by_cases ha : toLowerStr a.status = "available".data
    · simp [h1, h2, normalizeAvailability, ha]
    · simp [h1, h2, normalizeAvailability, ha]

/-- Witness for claim C5: a mixed-case `AVAILABLE` record on a day
with no blocks and no bookings resolves to `available`. -/
theorem resolveDayStatus_availability_spec_witness :
    resolveDayStatus false [] ((some avMixedCase).map normalizeAvailability) = DayStatus.available :=
  (resolveDayStatus_availability_spec [] (some avMixedCase) (by simp)).1.mpr
    ⟨avMixedCase, rfl, by decide⟩

/-- On a booking whose `requested_date` is present, the per-date
matcher callback cannot throw, and it agrees with its total variant. -/
theorem bookingMatchesDate_ok (d : JStr) (b : Booking) (hb : b.requested_date.isSome) :
    bookingMatchesDate d b = Except.ok (bookingMatchesDateB d b) := by
  rcases hrd : b.requested_date with _ | rd
  · simp [hrd] at hb
  · unfold bookingMatchesDate bookingMatchesDateB
    rw [hrd]
    rcases b.end_date with _ | ed
    · rfl
    · by_cases he : (splitT ed).isEmpty <;> simp [he]

/-- Claim C3: the per-date matcher returns exactly the bookings
overlapping the target date and never throws for a date with no
matches: it filters the list by a pure predicate that, for a booking
with a (nonempty, truncated) end date, tests `start <= target <= end`
inclusive, and for a booking without an end date tests
`start == target`; on the empty list it returns the empty list; and
the multi-day example booking 2024-01-10..2024-01-12 is matched on
exactly its three days. -/
theorem getBookingsForDate_spec (bs : List Booking) (d : JStr)
    (h : ∀ b ∈ bs, b.requested_date.isSome) :
    getBookingsForDate bs d = Except.ok (bs.filter (bookingMatchesDateB d))
    ∧ (∀ b rd ed, b.requested_date = some rd → b.end_date = some ed →
        (splitT ed).isEmpty = false →
        (bookingMatchesDateB d b = true ↔
          (strLeB (splitT rd) d = true ∧ strLeB d (splitT ed) = true)))
    ∧ (∀ b rd, b.requested_date = some rd → b.end_date = none →
        (bookingMatchesDateB d b = true ↔ splitT rd = d))
    ∧ getBookingsForDate [] d = Except.ok []
    ∧ getBookingsForDate [bkMultiDay] "2024-01-10".data = Except.ok [bkMultiDay]
    ∧ getBookingsForDate [bkMultiDay] "2024-01-11".data = Except.ok [bkMultiDay]
    ∧ getBookingsForDate [bkMultiDay] "2024-01-12".data = Except.ok [bkMultiDay]
    ∧ getBookingsForDate [bkMultiDay] "2024-01-09".data = Except.ok []
    ∧ getBookingsForDate [bkMultiDay] "2024-01-13".data = Except.ok [] := by
  refine ⟨?_, ?_, ?_, rfl, rfl, rfl, rfl, rfl, rfl⟩
  · exact filterME_ok _ _ bs (fun b hb => bookingMatchesDate_ok d b (h b hb))
  · intro b rd ed hrd hed hne
    unfold bookingMatchesDateB
    rw [hrd, hed]
    simp [hne]
  · intro b rd hrd hend
    unfold bookingMatchesDateB
    rw [hrd, hend]
    simp

/-- Witness for claim C3 at the concrete multi-day booking and target
date 2024-01-11. -/
theorem getBookingsForDate_spec_witness :
    getBookingsForDate [bkMultiDay] "2024-01-11".data
      = Except.ok ([bkMultiDay].filter (bookingMatchesDateB "2024-01-11".data)) :=
  (getBookingsForDate_spec [bkMultiDay] "2024-01-11".data (by decide)).1

/-- The Step 6 loop, run for its full trip count, produces exactly the
ascending enumeration of the day range filtered to the blocked
weekdays, formatted. -/
theorem expandLoop_eq (bl : List Nat) (e : Nat) :
    ∀ n s, e + 1 - s = n →
      expandLoop bl n s e
        = ((List.range' s n).filter (fun z => bl.contains (dayOfWeek z))).map formatDate := by
  intro n
  induction n with
  | zero => intro s hs; rfl
  | succ k ih =>
    intro s hs
    have hse : s ≤ e := by omega
    have ih2 := ih (s + 1) (by omega)
    unfold expandLoop
    rw [if_pos hse, List.range'_succ, List.filter_cons]
    by_cases hc : dayOfWeek s ∈ bl
    · simp [hc, ih2]
    · simp [hc, ih2]

/-- Claim C4: the blocked-weekday expander yields exactly the
ascending sequence of dates of the inclusive range whose weekday
(0 = Sunday .. 6 = Saturday) lies in the blocked set, as canonical
date strings; an empty weekday set yields no dates; the March 2024
range with weekdays {0, 6} yields exactly the ten March weekends in
ascending order; and a range spanning a year boundary is handled. -/
theorem expandedBlockedDates_spec (s e : Nat) (bl : List Nat) :
    expandedBlockedDates s e bl
      = ((List.range' s (e + 1 - s)).filter (fun z => bl.contains (dayOfWeek z))).map formatDate
    ∧ expandedBlockedDates s e [] = []
    ∧ expandedBlockedDates (daysFromCivil 2024 3 1) (daysFromCivil 2024 3 31) [0, 6]
        = ["2024-03-02".data, "2024-03-03".data, "2024-03-09".data, "2024-03-10".data,
           "2024-03-16".data, "2024-03-17".data, "2024-03-23".data, "2024-03-24".data,
           "2024-03-30".data, "2024-03-31".data]
    ∧ expandedBlockedDates (daysFromCivil 2023 12 30) (daysFromCivil 2024 1 2) [1]
        = ["2024-01-01".data] := by
  refine ⟨expandLoop_eq bl e (e + 1 - s) s rfl, ?_, by decide, by decide⟩
  simp [expandedBlockedDates, expandLoop_eq ([] : List Nat) e (e + 1 - s) s rfl]

/-- Agreement of two bookings on every field except `end_date`. -/
def sameExceptEnd (b b2 : Booking) : Prop :=
  b.id = b2.id ∧ b.course_id = b2.course_id ∧ b.trainer_id = b2.trainer_id
  ∧ b.requested_date = b2.requested_date ∧ b.status = b2.status
  ∧ b.request_type = b2.request_type ∧ b.title = b2.title

/-- On a booking whose normalized `requested_date` is present, the
Step 1 range callback cannot throw, and it agrees with its total
variant. -/
theorem inDisplayedRange_ok (s e : JStr) (b : Booking) (hb : b.requested_date.isSome) :
    inDisplayedRange s e b = Except.ok (inDisplayedRangeB s e b) := by
  rcases hrd : b.requested_date with _ | rd
  · simp [hrd] at hb
  · unfold inDisplayedRange inDisplayedRangeB
    rw [hrd]

/-- Claim C9: the Step 1 date-range filter keeps a normalized booking
exactly when its normalized start date lies within the displayed range
(string-inclusive on both ends); the kept/dropped decision never
consults `end_date` (bookings equal up to `end_date` are treated
alike); and concretely, a confirmed multi-day booking starting
2024-02-28 and ending 2024-03-05 is dropped entirely from the March
2024 range even though its end date falls inside it. -/
theorem filteredBookings_range_spec (allB : List Booking) (s e : JStr)
    (h : ∀ b ∈ allB, (normalizeDate b.requested_date).isSome) :
    filteredBookings allB s e
      = Except.ok ((allB.map normalizeBookingRecord).filter (inDisplayedRangeB s e))
    ∧ (∀ b rd, b.requested_date = some rd →
        (inDisplayedRangeB s e b = true ↔
          (strLeB s (splitT rd) = true ∧ strLeB (splitT rd) e = true)))
    ∧ (∀ b b2, sameExceptEnd b b2 → inDisplayedRangeB s e b = inDisplayedRangeB s e b2)
    ∧ filteredBookings [bkEarlyStart] "2024-03-01".data "2024-03-31".data = Except.ok [] := by
  refine ⟨?_, ?_, ?_, rfl⟩
  · apply filterME_ok
    intro nb hnb
    rcases List.mem_map.mp hnb with ⟨b, hb, rfl⟩
    apply inDisplayedRange_ok
    simpa [normalizeBookingRecord] using h b hb
  · intro b rd hrd
    unfold inDisplayedRangeB
    rw [hrd]
    simp
  · intro b b2 hbb
    unfold inDisplayedRangeB
    rw [hbb.2.2.2.1]

/-- Witness for claim C9 at the concrete early-start confirmed
booking and the displayed March 2024 range. -/
theorem filteredBookings_range_spec_witness :
    filteredBookings [bkEarlyStart] "2024-03-01".data "2024-03-31".data
      = Except.ok (([bkEarlyStart].map normalizeBookingRecord).filter
          (inDisplayedRangeB "2024-03-01".data "2024-03-31".data)) :=
  (filteredBookings_range_spec [bkEarlyStart] "2024-03-01".data "2024-03-31".data (by decide)).1

/-- Event lists that agree up to `end_date` produce identical
identifier sets (the identifier reads only `course_id` and
`requested_date`). -/
theorem eventIdentifiers_congr {e e2 : List Booking}
    (he : List.Forall₂ sameExceptEnd e e2) : eventIdentifiers e = eventIdentifiers e2 := by
  induction he with
  | nil => rfl
  | cons hab hrest ih =>
    unfold eventIdentifiers at ih ⊢
    simp only [List.map_cons]
    rw [ih]
    congr 1
    unfold identOf
    rw [hab.2.1, hab.2.2.2.1]

/-- The keep/discard decision reads only `status`, `course_id` and
`requested_date`. -/
theorem keepBooking_congr (ids : List JStr) {b b2 : Booking} (hbb : sameExceptEnd b b2) :
    keepBooking ids b = keepBooking ids b2 := by
  unfold keepBooking
  rw [hbb.2.1, hbb.2.2.2.1, hbb.2.2.2.2.1]

/-- Filtering with a predicate that respects a relation preserves
`Forall₂` of that relation. -/
theorem filter_forall₂ {α : Type} {R : α → α → Prop} {p : α → Bool}
    (hp : ∀ a b, R a b → p a = p b) :
    ∀ {l1 l2 : List α}, List.Forall₂ R l1 l2 → List.Forall₂ R (l1.filter p) (l2.filter p) := by
  intro l1 l2 h
  induction h with
  | @cons a b t1 t2 hab hrest ih =>
    rw [List.filter_cons, List.filter_cons, ← hp a b hab]
    by_cases hc : p a = true
    · rw [if_pos hc, if_pos hc]
      exact List.Forall₂.cons hab ih
    · rw [if_neg hc, if_neg hc]
      exact ih
  | nil => exact List.Forall₂.nil

/-- A confirmed raw booking is discarded by the deduplicator exactly
when some event-derived booking carries the same
`{courseId}:{date}` identifier. -/
theorem dedup_discard_iff (f e : List Booking) (b : Booking) (hb : b ∈ f)
    (hconf : toLowerStr b.status = "confirmed".data) :
    b ∉ deduplicatedBookings f e ↔
      ∃ ev ∈ e, identOf ev.course_id ev.requested_date
        = identOf b.course_id b.requested_date := by
  have h1 : b ∉ deduplicatedBookings f e
      ↔ keepBooking (eventIdentifiers e) b = false := by
    simp [deduplicatedBookings, List.mem_filter, hb]
  rw [h1, keepBooking_eq_false_iff]
  simp [hconf, eventIdentifiers, List.mem_map, eq_comm]

/-- Splitting a `{left}:{right}` string is unambiguous when neither
left part contains a colon. -/
theorem colonFree_append_inj (c r : JStr) :
    ∀ (c2 r2 : JStr), ':' ∉ c → ':' ∉ c2 →
      c ++ ':' :: r = c2 ++ ':' :: r2 → c = c2 ∧ r = r2 := by
  induction c with
  | nil =>
    intro c2 r2 h1 h2 heq
    cases c2 with
    | nil => simpa using heq
    | cons x xs =>
      simp only [List.nil_append, List.cons_append, List.cons.injEq] at heq
      exact absurd (heq.1 ▸ List.mem_cons_self x xs) h2
  | cons x xs ih =>
    intro c2 r2 h1 h2 heq
    cases c2 with
    | nil =>
      simp only [List.cons_append, List.nil_append, List.cons.injEq] at heq
      exact absurd (heq.1 ▸ List.mem_cons_self x xs) h1
    | cons y ys =>
      simp only [List.cons_append, List.cons.injEq] at heq
      have hx : ':' ∉ xs := fun hm => h1 (List.mem_cons_of_mem x hm)
      have hy : ':' ∉ ys := fun hm => h2 (List.mem_cons_of_mem y hm)
      obtain ⟨hc, hr⟩ := ih ys r2 hx hy heq.2
      exact ⟨by rw [heq.1, hc], hr⟩

/-- Identifier equality decomposes into course and rendered-date
equality when the course ids are colon-free. -/
theorem identOf_inj {c c2 : JStr} {rd rd2 : Option JStr} (h1 : ':' ∉ c) (h2 : ':' ∉ c2)
    (heq : identOf c rd = identOf c2 rd2) : c = c2 ∧ renderDate rd = renderDate rd2 :=
  colonFree_append_inj c (renderDate rd) c2 (renderDate rd2) h1 h2 heq

/-- Claim C10: the deduplicator's keep/discard decisions depend only
on status, course id and normalized start date — inputs that agree up
to `end_date` fields produce outputs that agree up to `end_date` — and
a confirmed booking is suppressed exactly when some event-derived
booking carries the same `{courseId}:{date}` identifier, which for
colon-free course ids means the same course id and the identical
rendered start date. -/
theorem deduplicatedBookings_end_date_irrelevant (f f2 e e2 : List Booking)
    (hf : List.Forall₂ sameExceptEnd f f2) (he : List.Forall₂ sameExceptEnd e e2) :
    List.Forall₂ sameExceptEnd (deduplicatedBookings f e) (deduplicatedBookings f2 e2)
    ∧ (∀ b ∈ f, toLowerStr b.status = "confirmed".data →
        (b ∉ deduplicatedBookings f e ↔
          ∃ ev ∈ e, identOf ev.course_id ev.requested_date
            = identOf b.course_id b.requested_date))
    ∧ (∀ b ∈ f, toLowerStr b.status = "confirmed".data → ':' ∉ b.course_id →
        (∀ ev ∈ e, ':' ∉ ev.course_id) →
        (b ∉ deduplicatedBookings f e ↔
          ∃ ev ∈ e, ev.course_id = b.course_id
            ∧ renderDate ev.requested_date = renderDate b.requested_date)) := by
  refine ⟨?_, fun b hb hconf => dedup_discard_iff f e b hb hconf, ?_⟩
  · unfold deduplicatedBookings
    rw [eventIdentifiers_congr he]
    exact filter_forall₂ (fun a b hab => keepBooking_congr _ hab) hf
  · intro b hb hconf hcb hce
    rw [dedup_discard_iff f e b hb hconf]
    constructor
    · rintro ⟨ev, hev, hid⟩
      obtain ⟨hc, hr⟩ := identOf_inj (hce ev hev) hcb hid
      exact ⟨ev, hev, hc, hr⟩
    · rintro ⟨ev, hev, hc, hr⟩
      refine ⟨ev, hev, ?_⟩
      unfold identOf
      rw [hc, hr]

/-- The confirmed March booking with a different `end_date`. -/
def bkConfirmedAltEnd : Booking :=
  ⟨4, "c9".data, "t1".data, some "2024-03-05".data, some "2024-03-09".data, "confirmed".data,
   "inhouse".data, none⟩

/-- The sample event with a different end date. -/
def evSampleAltEnd : Event :=
  { evSample with endDate := some "2024-03-07".data }

/-- Witness for claim C10 at concrete inputs differing only in end
dates. -/
theorem deduplicatedBookings_end_date_irrelevant_witness :
    List.Forall₂ sameExceptEnd
      (deduplicatedBookings [bkConfirmed] [eventToBooking evSample])
      (deduplicatedBookings [bkConfirmedAltEnd] [eventToBooking evSampleAltEnd]) :=
  (deduplicatedBookings_end_date_irrelevant [bkConfirmed] [bkConfirmedAltEnd]
    [eventToBooking evSample] [eventToBooking evSampleAltEnd]
    (List.Forall₂.cons ⟨rfl, rfl, rfl, rfl, rfl, rfl, rfl⟩ List.Forall₂.nil)
    (List.Forall₂.cons ⟨rfl, rfl, rfl, rfl, rfl, rfl, rfl⟩ List.Forall₂.nil)).1
